import Mathlib

/-!
Shallow embedding of `src/cxx/trainer/src/SVDPCATrainer.cc` (SVD-based PCA
trainer).  Real numbers of the source (C++ `double`) are modelled by `ℚ`;
the external SVD primitive (`Torch::math::svd_`) and the square-root
primitive (`blitz::sqrt`) are parameters of the embedding, since both are
external collaborators of the core.  The sample source (`io::Arrayset`),
consumed only through `getElementType`, `getNDim`, `size`, `getShape` and
`get`, is modelled by the `Arrayset` structure.  The linear machine,
consumed only through its configuration setters, is modelled by the
`LinearMachine` record of what those setters stored.
-/

namespace SVDPCA

/-- Element types of the array framework (`Torch::core::array`); the trainer
only distinguishes `t_float64` from everything else. -/
inductive ElementType
  | t_bool
  | t_int8
  | t_int16
  | t_int32
  | t_int64
  | t_uint8
  | t_uint16
  | t_uint32
  | t_uint64
  | t_float32
  | t_float64
  | t_complex64
  | t_complex128
  deriving DecidableEq

/-- The sample source (`io::Arrayset`): declared element type, declared
sample rank (`getNDim`), declared per-sample shape (`getShape`), and the
stored samples themselves (`get(i)` yields sample `i`). -/
structure Arrayset where
  elementType : ElementType
  ndim : Nat
  shape : List Nat
  data : List (List ℚ)

/-- `ar.size()`: number of stored samples. -/
def Arrayset.size (ar : Arrayset) : Nat := ar.data.length

/-- `ar.getShape()[0]`: the number of features of each (rank-1) sample. -/
def Arrayset.nFeatures (ar : Arrayset) : Nat := ar.shape.headD 0

/-- Element `f` of sample `i`, as read when copying `ar.get<double,1>(i)`
into column `i` of the scratch training matrix. -/
def Arrayset.entry (ar : Arrayset) (i f : Nat) : ℚ :=
  (ar.data.getD i []).getD f 0

/-- The input-division state of the linear machine: `setInputDivision(1.0)`
stores a broadcast scalar, `setInputDivision(tmp)` a per-axis vector. -/
inductive InputDivision
  | scalar (v : ℚ)
  | vector (v : List ℚ)
  deriving DecidableEq

/-- The trained linear machine, as populated through `resize`,
`setInputSubtraction`, `setInputDivision`, `setBiases`, `setWeights`. -/
structure LinearMachine where
  nInputs : Nat
  nOutputs : Nat
  inputSubtraction : List ℚ
  inputDivision : InputDivision
  biases : ℚ
  weights : List (List ℚ)
  deriving DecidableEq

/-- The two recoverable failures thrown by `train`
(`Torch::io::TypeError` and `Torch::io::DimensionError`), each carrying
the found and the expected value. -/
inductive TrainError
  | typeError (found expected : ElementType)
  | dimensionError (found expected : Nat)
  deriving DecidableEq

/-- The external SVD primitive `Torch::math::svd_`: given the (centered)
training matrix it fills the caller-allocated buffers `U`
(`n_features × n_sigma`, entry by entry via `uEntry`) and `sigma`
(`n_sigma`, via `sigmaEntry`).  The matrix argument is passed as the list
of its columns. -/
structure SVDPrim where
  uEntry : List (List ℚ) → Nat → Nat → ℚ
  sigmaEntry : List (List ℚ) → Nat → ℚ

/-- The trainer object: its only state is the immutable `m_zscore_convert`
flag captured at construction. -/
structure SVDPCATrainer where
  m_zscore_convert : Bool

/-- `SVDPCATrainer(bool zscore_convert)`. -/
def SVDPCATrainer.mkWith (zscore_convert : Bool) : SVDPCATrainer :=
  ⟨zscore_convert⟩

/-- `SVDPCATrainer()`: default construction sets `m_zscore_convert = false`. -/
def SVDPCATrainer.mkDefault : SVDPCATrainer := ⟨false⟩

/-- The scratch training matrix `data(n_features, n_samples)`, column `i`
copied from sample `i` (`data(all,i) = ar.get<double,1>(i)`), given as the
list of its columns. -/
def dataMatrix (ar : Arrayset) : List (List ℚ) :=
  (List.range ar.size).map (fun i =>
    (List.range ar.nFeatures).map (fun f => ar.entry i f))

/-- Feature `f` of the empirical mean `mean = blitz::mean(data, j)`:
the average over the sample axis. -/
def meanEntry (ar : Arrayset) (f : Nat) : ℚ :=
  ((List.range ar.size).map (fun i => ar.entry i f)).sum / (ar.size : ℚ)

/-- The mean vector `mean(n_features)`. -/
def meanVec (ar : Arrayset) : List ℚ :=
  (List.range ar.nFeatures).map (meanEntry ar)

/-- The training matrix after the in-place centering loop
`for i: data(all,i) -= mean`, as the list of its columns. -/
def centeredData (ar : Arrayset) : List (List ℚ) :=
  (List.range ar.size).map (fun i =>
    (List.range ar.nFeatures).map (fun f => ar.entry i f - meanEntry ar f))

/-- `n_sigma = std::min(n_features, n_samples)`. -/
def nSigma (ar : Arrayset) : Nat := min ar.nFeatures ar.size

/-- The buffer `U(n_features, n_sigma)` as filled by `svd_` on the centered
matrix, given as the list of its rows. -/
def uMatrix (svd : SVDPrim) (ar : Arrayset) : List (List ℚ) :=
  (List.range ar.nFeatures).map (fun i =>
    (List.range (nSigma ar)).map (fun j => svd.uEntry (centeredData ar) i j))

/-- The buffer `sigma(n_sigma)` as filled by `svd_` on the centered matrix. -/
def sigmaVec (svd : SVDPrim) (ar : Arrayset) : List ℚ :=
  (List.range (nSigma ar)).map (fun j => svd.sigmaEntry (centeredData ar) j)

/-- `U.transposeSelf(1,0)` on an `nrows × ncols` matrix given as the list
of its rows. -/
def matTranspose (nrows ncols : Nat) (m : List (List ℚ)) : List (List ℚ) :=
  (List.range ncols).map (fun j =>
    (List.range nrows).map (fun i => (m.getD i []).getD j 0))

/-- The C++ expression `n_samples - 1` where `n_samples` has type `size_t`:
subtraction of unsigned 64-bit integers, wrapping modulo `2^64`. -/
def sizetSub1 (n : Nat) : Nat := (n + (2 ^ 64 - 1)) % 2 ^ 64

/-- The eigenvalue buffer after
`eigen_values.resize(n_sigma); eigen_values = blitz::pow2(sigma)/(n_samples-1)`. -/
def eigenValuesVec (svd : SVDPrim) (ar : Arrayset) : List ℚ :=
  (sigmaVec svd ar).map (fun s => s ^ 2 / (sizetSub1 ar.size : ℚ))

/-- `SVDPCATrainer::train(machine, eigen_values, ar)`.  `machine` and
`eigen_values` are the by-reference outputs; the result carries the thrown
error (if any) together with the final contents of the two output
arguments (on a throw they are returned untouched, as the code throws
before mutating either). -/
def SVDPCATrainer.train (t : SVDPCATrainer) (svd : SVDPrim) (sqrtFn : ℚ → ℚ)
    (machine : LinearMachine) (eigen_values : List ℚ) (ar : Arrayset) :
    Option TrainError × LinearMachine × List ℚ :=
  if ar.elementType ≠ ElementType.t_float64 then
    (some (TrainError.typeError ar.elementType ElementType.t_float64),
     machine, eigen_values)
  else if ar.ndim ≠ 1 then
    (some (TrainError.dimensionError ar.ndim 1), machine, eigen_values)
  else
    let ev := eigenValuesVec svd ar
    (none,
     { nInputs := ar.nFeatures
       nOutputs := min ar.nFeatures ar.size
       inputSubtraction := meanVec ar
       inputDivision :=
         if t.m_zscore_convert then InputDivision.vector (ev.map sqrtFn)
         else InputDivision.scalar 1
       biases := 0
       weights := matTranspose ar.nFeatures (nSigma ar) (uMatrix svd ar) },
     ev)

/-- The convenience overload `SVDPCATrainer::train(machine, ar)`: calls the
three-argument `train` with a local throw-away eigenvalue buffer. -/
def SVDPCATrainer.train2 (t : SVDPCATrainer) (svd : SVDPrim) (sqrtFn : ℚ → ℚ)
    (machine : LinearMachine) (ar : Arrayset) :
    Option TrainError × LinearMachine :=
  let throw_away : List ℚ := []
  let r := t.train svd sqrtFn machine throw_away ar
  (r.1, r.2.1)

/-! ### Helper lemmas -/

theorem getD_rangeMap {α : Type} (n : Nat) (g : Nat → α) (d : α) (i : Nat)
    (h : i < n) : ((List.range n).map g).getD i d = g i := by
  rw [List.getD_eq_getElem?_getD, List.getElem?_map, List.getElem?_range h]
  rfl

theorem rangeMap_getD_map {α β : Type} (l : List α) (d : α) (g : α → β) :
    (List.range l.length).map (fun i => g (l.getD i d)) = l.map g := by
  apply List.ext_getElem
  · simp
  · intro i h1 h2
    simp only [List.getElem_map, List.getElem_range]
    rw [List.getD_eq_getElem l d (by simpa using h2)]

/-- Success-path unfolding of `train`: once both precondition guards pass,
the outputs are exactly the pipeline results. -/
theorem train_ok (t : SVDPCATrainer) (svd : SVDPrim) (sqrtFn : ℚ → ℚ)
    (machine : LinearMachine) (eigen_values : List ℚ) (ar : Arrayset)
    (htype : ar.elementType = ElementType.t_float64) (hdim : ar.ndim = 1) :
    t.train svd sqrtFn machine eigen_values ar =
      (none,
       { nInputs := ar.nFeatures
         nOutputs := min ar.nFeatures ar.size
         inputSubtraction := meanVec ar
         inputDivision :=
           if t.m_zscore_convert then
             InputDivision.vector ((eigenValuesVec svd ar).map sqrtFn)
           else InputDivision.scalar 1
         biases := 0
         weights := matTranspose ar.nFeatures (nSigma ar) (uMatrix svd ar) },
       eigenValuesVec svd ar) := by
  unfold SVDPCATrainer.train
  rw [if_neg (by simp [htype]), if_neg (by simp [hdim])]

/-- Failure-path unfolding of `train`: a non-`t_float64` element type
throws the type error with the outputs untouched. -/
theorem train_err_type (t : SVDPCATrainer) (svd : SVDPrim) (sqrtFn : ℚ → ℚ)
    (machine : LinearMachine) (eigen_values : List ℚ) (ar : Arrayset)
    (h : ar.elementType ≠ ElementType.t_float64) :
    t.train svd sqrtFn machine eigen_values ar =
      (some (TrainError.typeError ar.elementType ElementType.t_float64),
       machine, eigen_values) := by
  unfold SVDPCATrainer.train
  rw [if_pos h]

/-- Failure-path unfolding of `train`: a `t_float64` source of rank other
than 1 throws the dimension error with the outputs untouched. -/
theorem train_err_dim (t : SVDPCATrainer) (svd : SVDPrim) (sqrtFn : ℚ → ℚ)
    (machine : LinearMachine) (eigen_values : List ℚ) (ar : Arrayset)
    (h1 : ar.elementType = ElementType.t_float64) (h2 : ar.ndim ≠ 1) :
    t.train svd sqrtFn machine eigen_values ar =
      (some (TrainError.dimensionError ar.ndim 1), machine,
       eigen_values) := by
  unfold SVDPCATrainer.train
  rw [if_neg (by simp [h1]), if_pos h2]

/-- For a realistic sample count (`1 ≤ n < 2^64`), the wrapping `size_t`
subtraction `n_samples - 1` is the ordinary one. -/
theorem sizetSub1_eq (n : Nat) (h1 : 1 ≤ n) (h2 : n < 2 ^ 64) :
    sizetSub1 n = n - 1 := by
  unfold sizetSub1
  have h3 : n + (2 ^ 64 - 1) = (n - 1) + 2 ^ 64 := by omega
  rw [h3, Nat.add_mod_right, Nat.mod_eq_of_lt (by omega)]

/-- Reading an entry of the transposed `U` buffer: entry `(j, i)` of the
transpose is entry `(i, j)` of `U`. -/
theorem matTranspose_uMatrix (svd : SVDPrim) (ar : Arrayset) :
    matTranspose ar.nFeatures (nSigma ar) (uMatrix svd ar) =
      (List.range (nSigma ar)).map (fun j =>
        (List.range ar.nFeatures).map
          (fun i => svd.uEntry (centeredData ar) i j)) := by
  unfold matTranspose uMatrix
  apply List.map_congr_left
  intro j hj
  apply List.map_congr_left
  intro i hi
  rw [getD_rangeMap _ _ _ _ (List.mem_range.mp hi),
    getD_rangeMap _ _ _ _ (List.mem_range.mp hj)]

/-! ### Concrete fixtures used by the witnesses -/

/-- A trivial instantiation of the SVD primitive (fills both buffers with
zeros); the trainer is parametric in the primitive, so any concrete
instance is enough to exercise its own logic. -/
def zeroSVD : SVDPrim := ⟨fun _ _ _ => 0, fun _ _ => 0⟩

/-- A concrete square-root primitive argument (the identity map). -/
def idSqrt : ℚ → ℚ := fun x => x

/-- A freshly constructed linear machine. -/
def emptyMachine : LinearMachine :=
  ⟨0, 0, [], InputDivision.scalar 1, 0, []⟩

/-- The spec's concrete scenario: 4 float64 samples with 2 features. -/
def arSamples : Arrayset :=
  ⟨ElementType.t_float64, 1, [2], [[1, 0], [3, 0], [5, 0], [7, 0]]⟩

/-- A sample source declaring 32-bit integer elements. -/
def arIntSamples : Arrayset := ⟨ElementType.t_int32, 1, [2], [[1, 2]]⟩

/-- A float64 sample source whose samples are 2-D arrays. -/
def arTwoDim : Arrayset := ⟨ElementType.t_float64, 2, [2, 2], [[1, 2, 3, 4]]⟩

/-- A sample source that is wrong on both counts: integer elements and
2-D samples. -/
def arIntTwoDim : Arrayset := ⟨ElementType.t_int32, 2, [2, 2], [[1, 2, 3, 4]]⟩

/-- A float64 sample source holding exactly one sample. -/
def arOneSample : Arrayset := ⟨ElementType.t_float64, 1, [2], [[1, 2]]⟩

/-! ### Claims -/

/-- C1: for every sample source passing the preconditions, `train` writes
into the eigenvalue output buffer, resized to
`n_sigma = min(n_features, n_samples)`, exactly
`eigen_values[i] = sigma[i]^2 / (n_samples - 1)` for each `i`, where
`sigma` is the buffer filled by the SVD primitive — the unbiased `N-1`
divisor. -/
theorem train_eigenvalues_unbiased (t : SVDPCATrainer) (svd : SVDPrim)
    (sqrtFn : ℚ → ℚ) (machine : LinearMachine) (eigen_values : List ℚ)
    (ar : Arrayset) (htype : ar.elementType = ElementType.t_float64)
    (hdim : ar.ndim = 1) (hpos : 1 ≤ ar.size) (hsz : ar.size < 2 ^ 64) :
    (t.train svd sqrtFn machine eigen_values ar).1 = none ∧
    (t.train svd sqrtFn machine eigen_values ar).2.2 =
      (List.range (min ar.nFeatures ar.size)).map
        (fun i => svd.sigmaEntry (centeredData ar) i ^ 2 /
          ((ar.size : ℚ) - 1)) := by
  rw [train_ok t svd sqrtFn machine eigen_values ar htype hdim]
  refine ⟨rfl, ?_⟩
  show eigenValuesVec svd ar = _
  unfold eigenValuesVec sigmaVec nSigma
  rw [List.map_map]
  apply List.map_congr_left
  intro j hj
  simp only [Function.comp_apply]
  rw [sizetSub1_eq ar.size hpos hsz, Nat.cast_sub hpos, Nat.cast_one]

theorem train_eigenvalues_unbiased_witness :
    arSamples.elementType = ElementType.t_float64 ∧ arSamples.ndim = 1 ∧
    1 ≤ arSamples.size ∧ arSamples.size < 2 ^ 64 ∧
    ((SVDPCATrainer.mkDefault.train zeroSVD idSqrt emptyMachine []
        arSamples).1 = none ∧
     (SVDPCATrainer.mkDefault.train zeroSVD idSqrt emptyMachine []
        arSamples).2.2 =
       (List.range (min arSamples.nFeatures arSamples.size)).map
         (fun i => zeroSVD.sigmaEntry (centeredData arSamples) i ^ 2 /
           ((arSamples.size : ℚ) - 1))) :=
  ⟨rfl, rfl, by decide, by decide,
   train_eigenvalues_unbiased SVDPCATrainer.mkDefault zeroSVD idSqrt
     emptyMachine [] arSamples rfl rfl (by decide) (by decide)⟩

/-- C2: for every sample source passing the preconditions, the weight
matrix written into the machine is the transpose of the `U` buffer filled
by the SVD primitive: it has `n_sigma` rows and row `j` is column `j` of
`U`. -/
theorem train_weights_U_transpose (t : SVDPCATrainer) (svd : SVDPrim)
    (sqrtFn : ℚ → ℚ) (machine : LinearMachine) (eigen_values : List ℚ)
    (ar : Arrayset) (htype : ar.elementType = ElementType.t_float64)
    (hdim : ar.ndim = 1) :
    (t.train svd sqrtFn machine eigen_values ar).1 = none ∧
    (t.train svd sqrtFn machine eigen_values ar).2.1.weights.length =
      nSigma ar ∧
    ∀ j, j < nSigma ar →
      (t.train svd sqrtFn machine eigen_values ar).2.1.weights.getD j [] =
        (List.range ar.nFeatures).map
          (fun i => ((uMatrix svd ar).getD i []).getD j 0) := by
  rw [train_ok t svd sqrtFn machine eigen_values ar htype hdim]
  refine ⟨rfl, by simp [matTranspose], ?_⟩
  intro j hj
  show (matTranspose ar.nFeatures (nSigma ar) (uMatrix svd ar)).getD j [] = _
  unfold matTranspose
  rw [getD_rangeMap _ _ _ _ hj]

theorem train_weights_U_transpose_witness :
    arSamples.elementType = ElementType.t_float64 ∧ arSamples.ndim = 1 ∧
    ((SVDPCATrainer.mkDefault.train zeroSVD idSqrt emptyMachine []
        arSamples).1 = none ∧
     (SVDPCATrainer.mkDefault.train zeroSVD idSqrt emptyMachine []
        arSamples).2.1.weights.length = nSigma arSamples ∧
     ∀ j, j < nSigma arSamples →
       (SVDPCATrainer.mkDefault.train zeroSVD idSqrt emptyMachine []
          arSamples).2.1.weights.getD j [] =
         (List.range arSamples.nFeatures).map
           (fun i => ((uMatrix zeroSVD arSamples).getD i []).getD j 0)) :=
  ⟨rfl, rfl,
   train_weights_U_transpose SVDPCATrainer.mkDefault zeroSVD idSqrt
     emptyMachine [] arSamples rfl rfl⟩

/-- C3: for every sample source passing the preconditions, the
input-subtraction vector written into the machine is the per-feature
arithmetic mean of the samples, and exactly that mean is subtracted from
every column of the scratch training matrix handed to the SVD. -/
theorem train_mean_subtraction (t : SVDPCATrainer) (svd : SVDPrim)
    (sqrtFn : ℚ → ℚ) (machine : LinearMachine) (eigen_values : List ℚ)
    (ar : Arrayset) (htype : ar.elementType = ElementType.t_float64)
    (hdim : ar.ndim = 1)
    (_hhom : ∀ s ∈ ar.data, s.length = ar.nFeatures) :
    (t.train svd sqrtFn machine eigen_values ar).1 = none ∧
    (t.train svd sqrtFn machine eigen_values ar).2.1.inputSubtraction =
      meanVec ar ∧
    (∀ f, f < ar.nFeatures → (meanVec ar).getD f 0 =
      (ar.data.map (fun s => s.getD f 0)).sum / (ar.size : ℚ)) ∧
    (∀ i, i < ar.size → ∀ f, f < ar.nFeatures →
      ((centeredData ar).getD i []).getD f 0 =
        ((dataMatrix ar).getD i []).getD f 0 - (meanVec ar).getD f 0) := by
  rw [train_ok t svd sqrtFn machine eigen_values ar htype hdim]
  refine ⟨rfl, rfl, ?_, ?_⟩
  · intro f hf
    unfold meanVec
    rw [getD_rangeMap _ _ _ _ hf]
    unfold meanEntry
    have h0 : ∀ i : Nat, ar.entry i f = (ar.data.getD i []).getD f 0 :=
      fun i => rfl
    simp only [h0]
    rw [show ar.size = ar.data.length from rfl,
      rangeMap_getD_map ar.data [] (fun s => s.getD f 0)]
  · intro i hi f hf
    unfold centeredData dataMatrix meanVec
    rw [getD_rangeMap _ _ _ _ hi, getD_rangeMap _ _ _ _ hf,
      getD_rangeMap _ _ _ _ hi, getD_rangeMap _ _ _ _ hf,
      getD_rangeMap _ _ _ _ hf]

theorem train_mean_subtraction_witness :
    arSamples.elementType = ElementType.t_float64 ∧ arSamples.ndim = 1 ∧
    (∀ s ∈ arSamples.data, s.length = arSamples.nFeatures) ∧
    ((SVDPCATrainer.mkDefault.train zeroSVD idSqrt emptyMachine []
        arSamples).1 = none ∧
     (SVDPCATrainer.mkDefault.train zeroSVD idSqrt emptyMachine []
        arSamples).2.1.inputSubtraction = meanVec arSamples ∧
     (∀ f, f < arSamples.nFeatures → (meanVec arSamples).getD f 0 =
       (arSamples.data.map (fun s => s.getD f 0)).sum /
         (arSamples.size : ℚ)) ∧
     (∀ i, i < arSamples.size → ∀ f, f < arSamples.nFeatures →
       ((centeredData arSamples).getD i []).getD f 0 =
         ((dataMatrix arSamples).getD i []).getD f 0 -
           (meanVec arSamples).getD f 0)) :=
  ⟨rfl, rfl, by decide,
   train_mean_subtraction SVDPCATrainer.mkDefault zeroSVD idSqrt
     emptyMachine [] arSamples rfl rfl (by decide)⟩

/-- C4: for every sample source whose element type is not `t_float64`,
`train` fails with a type-mismatch error carrying the found and expected
type, and both by-reference outputs are returned exactly as passed in. -/
theorem train_type_mismatch (t : SVDPCATrainer) (svd : SVDPrim)
    (sqrtFn : ℚ → ℚ) (machine : LinearMachine) (eigen_values : List ℚ)
    (ar : Arrayset) (htype : ar.elementType ≠ ElementType.t_float64) :
    t.train svd sqrtFn machine eigen_values ar =
      (some (TrainError.typeError ar.elementType ElementType.t_float64),
       machine, eigen_values) := by
  unfold SVDPCATrainer.train
  rw [if_pos htype]

theorem train_type_mismatch_witness :
    arIntSamples.elementType ≠ ElementType.t_float64 ∧
    SVDPCATrainer.mkDefault.train zeroSVD idSqrt emptyMachine []
        arIntSamples =
      (some (TrainError.typeError ElementType.t_int32
        ElementType.t_float64), emptyMachine, []) :=
  ⟨by decide,
   train_type_mismatch SVDPCATrainer.mkDefault zeroSVD idSqrt emptyMachine
     [] arIntSamples (by decide)⟩

/-- C5, as stated, is false: the type check runs first, so a sample source
that is wrong on both counts (integer elements and rank 2) fails with a
type-mismatch error, not the dimensionality error the claim promises. -/
theorem train_rank_check_after_type_check :
    arIntTwoDim.ndim = 2 ∧
    (SVDPCATrainer.mkDefault.train zeroSVD idSqrt emptyMachine []
        arIntTwoDim).1 =
      some (TrainError.typeError ElementType.t_int32
        ElementType.t_float64) ∧
    (SVDPCATrainer.mkDefault.train zeroSVD idSqrt emptyMachine []
        arIntTwoDim).1 ≠
      some (TrainError.dimensionError 2 1) :=
  ⟨rfl, by decide, by decide⟩

/-- C5 (amended): for every sample source with the required `t_float64`
element type whose rank is not 1, `train` fails with a dimensionality
error carrying the found and expected rank, and both by-reference outputs
are returned exactly as passed in. -/
theorem train_rank_mismatch (t : SVDPCATrainer) (svd : SVDPrim)
    (sqrtFn : ℚ → ℚ) (machine : LinearMachine) (eigen_values : List ℚ)
    (ar : Arrayset) (htype : ar.elementType = ElementType.t_float64)
    (hdim : ar.ndim ≠ 1) :
    t.train svd sqrtFn machine eigen_values ar =
      (some (TrainError.dimensionError ar.ndim 1), machine,
       eigen_values) := by
  unfold SVDPCATrainer.train
  rw [if_neg (by simp [htype]), if_pos hdim]

theorem train_rank_mismatch_witness :
    arTwoDim.elementType = ElementType.t_float64 ∧ arTwoDim.ndim ≠ 1 ∧
    SVDPCATrainer.mkDefault.train zeroSVD idSqrt emptyMachine []
        arTwoDim =
      (some (TrainError.dimensionError 2 1), emptyMachine, []) :=
  ⟨rfl, by decide,
   train_rank_mismatch SVDPCATrainer.mkDefault zeroSVD idSqrt emptyMachine
     [] arTwoDim rfl (by decide)⟩

/-- C6: for every sample source passing the preconditions, the eigenvalue
buffer, the number of weight-matrix rows and the machine's output size
all equal `min(n_features, n_samples)`. -/
theorem train_output_sizes (t : SVDPCATrainer) (svd : SVDPrim)
    (sqrtFn : ℚ → ℚ) (machine : LinearMachine) (eigen_values : List ℚ)
    (ar : Arrayset) (htype : ar.elementType = ElementType.t_float64)
    (hdim : ar.ndim = 1) :
    (t.train svd sqrtFn machine eigen_values ar).1 = none ∧
    (t.train svd sqrtFn machine eigen_values ar).2.2.length =
      min ar.nFeatures ar.size ∧
    (t.train svd sqrtFn machine eigen_values ar).2.1.weights.length =
      min ar.nFeatures ar.size ∧
    (t.train svd sqrtFn machine eigen_values ar).2.1.nOutputs =
      min ar.nFeatures ar.size := by
  rw [train_ok t svd sqrtFn machine eigen_values ar htype hdim]
  refine ⟨rfl, ?_, ?_, rfl⟩
  · show (eigenValuesVec svd ar).length = _
    simp [eigenValuesVec, sigmaVec, nSigma]
  · show (matTranspose ar.nFeatures (nSigma ar) (uMatrix svd ar)).length = _
    simp [matTranspose, nSigma]

theorem train_output_sizes_witness :
    arSamples.elementType = ElementType.t_float64 ∧ arSamples.ndim = 1 ∧
    ((SVDPCATrainer.mkDefault.train zeroSVD idSqrt emptyMachine []
        arSamples).1 = none ∧
     (SVDPCATrainer.mkDefault.train zeroSVD idSqrt emptyMachine []
        arSamples).2.2.length = min arSamples.nFeatures arSamples.size ∧
     (SVDPCATrainer.mkDefault.train zeroSVD idSqrt emptyMachine []
        arSamples).2.1.weights.length =
       min arSamples.nFeatures arSamples.size ∧
     (SVDPCATrainer.mkDefault.train zeroSVD idSqrt emptyMachine []
        arSamples).2.1.nOutputs =
       min arSamples.nFeatures arSamples.size) :=
  ⟨rfl, rfl,
   train_output_sizes SVDPCATrainer.mkDefault zeroSVD idSqrt emptyMachine
     [] arSamples rfl rfl⟩

/-- C7: for every sample source passing the preconditions, the machine's
input-division ends at the broadcast scalar `1.0` when the trainer was
constructed with `zscore_convert = false`, and at the per-axis vector of
element-wise square roots of the computed eigenvalues when it was
constructed with `zscore_convert = true`. -/
theorem train_zscore_division (t : SVDPCATrainer) (svd : SVDPrim)
    (sqrtFn : ℚ → ℚ) (machine : LinearMachine) (eigen_values : List ℚ)
    (ar : Arrayset) (htype : ar.elementType = ElementType.t_float64)
    (hdim : ar.ndim = 1) :
    (t.train svd sqrtFn machine eigen_values ar).1 = none ∧
    (t.m_zscore_convert = false →
      (t.train svd sqrtFn machine eigen_values ar).2.1.inputDivision =
        InputDivision.scalar 1) ∧
    (t.m_zscore_convert = true →
      (t.train svd sqrtFn machine eigen_values ar).2.1.inputDivision =
        InputDivision.vector
          ((t.train svd sqrtFn machine eigen_values ar).2.2.map
            sqrtFn)) := by
  rw [train_ok t svd sqrtFn machine eigen_values ar htype hdim]
  refine ⟨rfl, fun h => ?_, fun h => ?_⟩
  · show (if t.m_zscore_convert then _ else _) = _
    rw [if_neg (by simp [h])]
  · show (if t.m_zscore_convert then _ else _) = _
    rw [if_pos h]

theorem train_zscore_division_witness :
    arSamples.elementType = ElementType.t_float64 ∧ arSamples.ndim = 1 ∧
    (((SVDPCATrainer.mkWith true).train zeroSVD idSqrt emptyMachine []
        arSamples).1 = none ∧
     ((SVDPCATrainer.mkWith true).m_zscore_convert = false →
       ((SVDPCATrainer.mkWith true).train zeroSVD idSqrt emptyMachine []
          arSamples).2.1.inputDivision = InputDivision.scalar 1) ∧
     ((SVDPCATrainer.mkWith true).m_zscore_convert = true →
       ((SVDPCATrainer.mkWith true).train zeroSVD idSqrt emptyMachine []
          arSamples).2.1.inputDivision =
         InputDivision.vector
           (((SVDPCATrainer.mkWith true).train zeroSVD idSqrt emptyMachine
              [] arSamples).2.2.map idSqrt))) :=
  ⟨rfl, rfl,
   train_zscore_division (SVDPCATrainer.mkWith true) zeroSVD idSqrt
     emptyMachine [] arSamples rfl rfl⟩

/-- C8: for every sample source passing the preconditions with at least
two samples, if the SVD primitive fills `sigma` with non-negative values
in non-increasing order, then the returned eigenvalues are non-negative
and in non-increasing order. -/
theorem train_eigenvalues_sorted (t : SVDPCATrainer) (svd : SVDPrim)
    (sqrtFn : ℚ → ℚ) (machine : LinearMachine) (eigen_values : List ℚ)
    (ar : Arrayset) (htype : ar.elementType = ElementType.t_float64)
    (hdim : ar.ndim = 1) (hn : 2 ≤ ar.size) (hsz : ar.size < 2 ^ 64)
    (hnn : ∀ j, j < nSigma ar → 0 ≤ svd.sigmaEntry (centeredData ar) j)
    (hord : ∀ i j, i ≤ j → j < nSigma ar →
      svd.sigmaEntry (centeredData ar) j ≤
        svd.sigmaEntry (centeredData ar) i) :
    (∀ j, j < (t.train svd sqrtFn machine eigen_values ar).2.2.length →
      0 ≤ (t.train svd sqrtFn machine eigen_values ar).2.2.getD j 0) ∧
    (∀ i j, i ≤ j →
      j < (t.train svd sqrtFn machine eigen_values ar).2.2.length →
      (t.train svd sqrtFn machine eigen_values ar).2.2.getD j 0 ≤
        (t.train svd sqrtFn machine eigen_values ar).2.2.getD i 0) := by
  rw [train_ok t svd sqrtFn machine eigen_values ar htype hdim]
  have hlen : (eigenValuesVec svd ar).length = nSigma ar := by
    simp [eigenValuesVec, sigmaVec]
  have hD : (0 : ℚ) < (sizetSub1 ar.size : ℚ) := by
    have h1 : 0 < sizetSub1 ar.size := by
      rw [sizetSub1_eq ar.size (by omega) hsz]
      omega
    exact_mod_cast h1
  have hget : ∀ j, j < nSigma ar → (eigenValuesVec svd ar).getD j 0 =
      svd.sigmaEntry (centeredData ar) j ^ 2 / (sizetSub1 ar.size : ℚ) := by
    intro j hj
    unfold eigenValuesVec sigmaVec
    rw [List.map_map]
    exact getD_rangeMap _ _ _ _ hj
  constructor
  · intro j hj
    rw [hlen] at hj
    show 0 ≤ (eigenValuesVec svd ar).getD j 0
    rw [hget j hj]
    exact div_nonneg (sq_nonneg _) hD.le
  · intro i j hij hj
    rw [hlen] at hj
    have hi : i < nSigma ar := Nat.lt_of_le_of_lt hij hj
    show (eigenValuesVec svd ar).getD j 0 ≤ (eigenValuesVec svd ar).getD i 0
    rw [hget j hj, hget i hi]
    have hsq : svd.sigmaEntry (centeredData ar) j ^ 2 ≤
        svd.sigmaEntry (centeredData ar) i ^ 2 :=
      pow_le_pow_left₀ (hnn j hj) (hord i j hij hj) 2
    exact div_le_div_of_nonneg_right hsq hD.le

theorem train_eigenvalues_sorted_witness :
    arSamples.elementType = ElementType.t_float64 ∧ arSamples.ndim = 1 ∧
    2 ≤ arSamples.size ∧ arSamples.size < 2 ^ 64 ∧
    (∀ j, j < nSigma arSamples →
      0 ≤ zeroSVD.sigmaEntry (centeredData arSamples) j) ∧
    (∀ i j, i ≤ j → j < nSigma arSamples →
      zeroSVD.sigmaEntry (centeredData arSamples) j ≤
        zeroSVD.sigmaEntry (centeredData arSamples) i) ∧
    ((∀ j, j < (SVDPCATrainer.mkDefault.train zeroSVD idSqrt emptyMachine
        [] arSamples).2.2.length →
      0 ≤ (SVDPCATrainer.mkDefault.train zeroSVD idSqrt emptyMachine []
        arSamples).2.2.getD j 0) ∧
     (∀ i j, i ≤ j →
       j < (SVDPCATrainer.mkDefault.train zeroSVD idSqrt emptyMachine []
         arSamples).2.2.length →
       (SVDPCATrainer.mkDefault.train zeroSVD idSqrt emptyMachine []
         arSamples).2.2.getD j 0 ≤
         (SVDPCATrainer.mkDefault.train zeroSVD idSqrt emptyMachine []
           arSamples).2.2.getD i 0)) :=
  ⟨rfl, rfl, by decide, by decide, fun j h => le_refl 0,
   fun i j h1 h2 => le_refl 0,
   train_eigenvalues_sorted SVDPCATrainer.mkDefault zeroSVD idSqrt
     emptyMachine [] arSamples rfl rfl (by decide) (by decide)
     (fun j h => le_refl 0) (fun i j h1 h2 => le_refl 0)⟩

/-- C9: the two-argument overload of `train` behaves exactly like the
three-argument one with the eigenvalue output discarded: same error (or
none) and same final machine, for every initial eigenvalue buffer. -/
theorem train2_eq_train_discard (t : SVDPCATrainer) (svd : SVDPrim)
    (sqrtFn : ℚ → ℚ) (machine : LinearMachine) (ar : Arrayset)
    (eigen_values : List ℚ) :
    t.train2 svd sqrtFn machine ar =
      ((t.train svd sqrtFn machine eigen_values ar).1,
       (t.train svd sqrtFn machine eigen_values ar).2.1) := by
  show ((t.train svd sqrtFn machine [] ar).1,
        (t.train svd sqrtFn machine [] ar).2.1) = _
  by_cases h1 : ar.elementType = ElementType.t_float64
  · by_cases h2 : ar.ndim = 1
    · rw [train_ok t svd sqrtFn machine [] ar h1 h2,
        train_ok t svd sqrtFn machine eigen_values ar h1 h2]
    · rw [train_err_dim t svd sqrtFn machine [] ar h1 h2,
        train_err_dim t svd sqrtFn machine eigen_values ar h1 h2]
  · rw [train_err_type t svd sqrtFn machine [] ar h1,
      train_err_type t svd sqrtFn machine eigen_values ar h1]

/-- C10: for a sample source passing the preconditions with exactly one
sample, `train` raises no error and reaches the eigenvalue step, whose
divisor `n_samples - 1` is `0`: every eigenvalue is computed as
`sigma^2 / 0`, with no guard in the code. -/
theorem train_single_sample_zero_divisor (t : SVDPCATrainer)
    (svd : SVDPrim) (sqrtFn : ℚ → ℚ) (machine : LinearMachine)
    (eigen_values : List ℚ) (ar : Arrayset)
    (htype : ar.elementType = ElementType.t_float64) (hdim : ar.ndim = 1)
    (hone : ar.size = 1) :
    (t.train svd sqrtFn machine eigen_values ar).1 = none ∧
    (sizetSub1 ar.size : ℚ) = 0 ∧
    (t.train svd sqrtFn machine eigen_values ar).2.2 =
      (List.range (min ar.nFeatures 1)).map
        (fun j => svd.sigmaEntry (centeredData ar) j ^ 2 / 0) := by
  rw [train_ok t svd sqrtFn machine eigen_values ar htype hdim]
  have hz : sizetSub1 ar.size = 0 := by
    rw [hone]
    decide
  refine ⟨rfl, by rw [hz]; simp, ?_⟩
  show eigenValuesVec svd ar = _
  unfold eigenValuesVec sigmaVec nSigma
  rw [List.map_map, hz, hone]
  simp [Function.comp_def, List.map_const']

theorem train_single_sample_zero_divisor_witness :
    arOneSample.elementType = ElementType.t_float64 ∧
    arOneSample.ndim = 1 ∧ arOneSample.size = 1 ∧
    ((SVDPCATrainer.mkDefault.train zeroSVD idSqrt emptyMachine []
        arOneSample).1 = none ∧
     (sizetSub1 arOneSample.size : ℚ) = 0 ∧
     (SVDPCATrainer.mkDefault.train zeroSVD idSqrt emptyMachine []
        arOneSample).2.2 =
       (List.range (min arOneSample.nFeatures 1)).map
         (fun j => zeroSVD.sigmaEntry (centeredData arOneSample) j ^ 2 /
           0)) :=
  ⟨rfl, rfl, rfl,
   train_single_sample_zero_divisor SVDPCATrainer.mkDefault zeroSVD idSqrt
     emptyMachine [] arOneSample rfl rfl rfl⟩

end SVDPCA
